import Mathlib

/-!
Verification development for the data-crossing core of the agente-publico
repository.

The embedded code comes from:
* src/utils/data_crosser.py   (class DataCrosser: identificar_chaves_potenciais,
  cruzar_dataframes, avaliar_qualidade_cruzamento)
* src/utils/data_processing.py (identificar_chaves_comuns)
* app_completo.py              (method cruzar_dados)

Modelling conventions:
* A pandas DataFrame is a list of named columns plus an explicit row count.
  Cell values are modelled as Option String (none is NaN/missing); numbers are
  carried as their string rendering, which is adequate because the embedded
  functions only compare values for equality, count distinct values, and the
  cross-name scoring path coerces values with astype(str) anyway.
* A column records its pandas dtype kind character (dtype.kind) as an
  enumeration; the source branches on membership of that character in the
  strings "iuf" and "OSU".
* Python iteration over set(df1.columns) ∩ set(df2.columns) has an
  implementation-defined (hash-dependent) order, so the two functions that
  iterate such a set take the iteration order as an explicit parameter ord;
  ValidOrd states that ord enumerates exactly the common column names.
* Scores are exact rationals (Rat).  Python float division by zero raises
  ZeroDivisionError for int operands, which is modelled with Except; the
  numpy float division in avaliar_qualidade_cruzamento instead produces NaN,
  which is modelled as none in an Option Rat.
-/

/-- The pandas dtype.kind character of a column (dtype metadata, fixed at
DataFrame construction time). -/
inductive DtypeKind where
  | int | uint | float | complex | bool | obj | str | uni | datetime | timedelta
deriving DecidableEq, Repr

/-- Membership of dtype.kind in the string "iuf" (integer, unsigned, float). -/
def DtypeKind.isNumericKind : DtypeKind → Bool
  | .int | .uint | .float => true
  | _ => false

/-- Membership of dtype.kind in the string "OSU" (object, bytes, unicode). -/
def DtypeKind.isTextKind : DtypeKind → Bool
  | .obj | .str | .uni => true
  | _ => false

/-- One pandas column: a name, the dtype kind, and the cell values in row
order (none is NaN). -/
structure Col where
  name : String
  kind : DtypeKind
  cells : List (Option String)
deriving DecidableEq, Repr

/-- A pandas DataFrame: ordered columns plus the row count len(df). -/
structure DF where
  cols : List Col
  nrows : Nat
deriving DecidableEq, Repr

/-- Well-formedness: every column has exactly nrows cells. -/
def DF.wf (df : DF) : Prop := ∀ c ∈ df.cols, c.cells.length = df.nrows

instance (df : DF) : Decidable df.wf := by
  unfold DF.wf; infer_instance

/-- df.columns as a list of names. -/
def DF.names (df : DF) : List String := df.cols.map Col.name

/-- Column selection df[name]: the first column carrying the name. -/
def DF.getCol? (df : DF) (nm : String) : Option Col :=
  df.cols.find? (fun c => c.name == nm)

/-- The cells of column nm (empty list when the column is absent). -/
def DF.cellsOf (df : DF) (nm : String) : List (Option String) :=
  ((df.getCol? nm).map Col.cells).getD []

/-- series.nunique(): the number of distinct non-missing values. -/
def nunique (c : Col) : Nat := (c.cells.filterMap id).dedup.length

/-- set(series.dropna().unique()): the distinct non-missing values, listed in
first-occurrence order (only cardinality and intersection size are used). -/
def valores (c : Col) : List String := (c.cells.filterMap id).dedup

/-- len(set1 ∩ set2) for the distinct value sets of two columns. -/
def sobreposicao (c1 c2 : Col) : Nat :=
  ((valores c1).filter (fun v => (valores c2).contains v)).length

/-- The overlap score |v1 ∩ v2| / max |v1| |v2| as an exact rational. -/
def score (c1 c2 : Col) : Rat :=
  mkRat (sobreposicao c1 c2) (max (valores c1).length (valores c2).length)

/-- The uniqueness ratio nunique/len(df) as an exact rational (the guarded,
pure form; only meaningful for n ≠ 0). -/
def uniqueRatio (c : Col) (n : Nat) : Rat := mkRat (nunique c) n

/-- The message of the Python exception raised by an integer division with a
zero divisor. -/
def zeroDivMsg : String := "ZeroDivisionError: division by zero"

/-- series.nunique() / len(df) as executed by Python: raises
ZeroDivisionError when len(df) = 0, since nunique returns a plain int. -/
def uniqueRatioE (c : Col) (n : Nat) : Except String Rat :=
  if n = 0 then .error zeroDivMsg else .ok (uniqueRatio c n)

/-- A candidate key pair (coluna_df1, coluna_df2, score_similaridade). -/
abbrev Cand := String × String × Rat

/-- Loop body of the exact-name pass of identificar_chaves_potenciais
(data_crosser.py lines 44-60): both uniqueness ratios are computed
unconditionally (two assignment statements), then the > 0.5 test, the
nonempty-set test, and the append. -/
def passoComum (df1 df2 : DF) (acc : List Cand) (coluna : String) :
    Except String (List Cand) :=
  match df1.getCol? coluna, df2.getCol? coluna with
  | some c1, some c2 => do
    let ur1 ← uniqueRatioE c1 df1.nrows
    let ur2 ← uniqueRatioE c2 df2.nrows
    if mkRat 1 2 < ur1 ∧ mkRat 1 2 < ur2 then
      if valores c1 ≠ [] ∧ valores c2 ≠ [] then
        pure (acc ++ [(coluna, coluna, score c1 c2)])
      else pure acc
    else pure acc
  | _, _ => pure acc

/-- Loop body of the cross-name pass (data_crosser.py lines 64-92): skip
equal names, require equal dtype kinds, skip numeric kinds, and for text
kinds ("OSU") require both ratios > 0.5, nonempty value sets and overlap
score > 0.1.  astype(str) is the identity here because cells are already
modelled as strings. -/
def passoCruzado (n1 n2 : Nat) (acc : List Cand) (p : Col × Col) :
    Except String (List Cand) :=
  if p.1.name = p.2.name then pure acc
  else if p.1.kind = p.2.kind then
    if p.1.kind.isNumericKind then pure acc
    else if p.1.kind.isTextKind then do
      let ur1 ← uniqueRatioE p.1 n1
      let ur2 ← uniqueRatioE p.2 n2
      if mkRat 1 2 < ur1 ∧ mkRat 1 2 < ur2 then
        if valores p.1 ≠ [] ∧ valores p.2 ≠ [] then
          if mkRat 1 10 < score p.1 p.2 then
            pure (acc ++ [(p.1.name, p.2.name, score p.1 p.2)])
          else pure acc
        else pure acc
      else pure acc
    else pure acc
  else pure acc

/-- The nested loop "for col1 in df1.columns: for col2 in df2.columns" in
row-major order. -/
def prodCols (df1 df2 : DF) : List (Col × Col) :=
  df1.cols.flatMap (fun a => df2.cols.map (fun b => (a, b)))

/-- Ordering used by sorted(chaves_potenciais, key=lambda x: x[2],
reverse=True): descending by score.  Python's sort is stable, and so is the
insertion sort used here; a stable sort for a fixed total preorder has a
unique output, so any stable sort gives the same list. -/
def ordemScore (x y : Cand) : Prop := y.2.2 ≤ x.2.2

instance : DecidableRel ordemScore :=
  fun x y => inferInstanceAs (Decidable (y.2.2 ≤ x.2.2))

instance : IsTrans Cand ordemScore := ⟨fun _ _ _ hab hbc => le_trans hbc hab⟩

instance : IsTotal Cand ordemScore := ⟨fun a b => le_total b.2.2 a.2.2⟩

/-- DataCrosser.identificar_chaves_potenciais (data_crosser.py lines 27-95).
ord is the hash-dependent iteration order of the Python set
set(df1.columns) ∩ set(df2.columns). -/
def identificar_chaves_potenciais (df1 df2 : DF) (ord : List String) :
    Except String (List Cand) := do
  let l1 ← ord.foldlM (passoComum df1 df2) []
  let l2 ← (prodCols df1 df2).foldlM (passoCruzado df1.nrows df2.nrows) l1
  pure (List.insertionSort ordemScore l2)

/-- The canonical enumeration of set(df1.columns) ∩ set(df2.columns). -/
def colunasComuns (df1 df2 : DF) : List String :=
  (df1.names.dedup).filter (fun n => df2.names.contains n)

/-- ord is a legitimate iteration order of the Python set of common column
names: some permutation of the canonical enumeration. -/
def ValidOrd (df1 df2 : DF) (ord : List String) : Prop :=
  ord.Perm (colunasComuns df1 df2)

instance (df1 df2 : DF) (ord : List String) : Decidable (ValidOrd df1 df2 ord) := by
  unfold ValidOrd; infer_instance

/-- Loop body of identificar_chaves_comuns (data_processing.py lines 282-286).
The Python test is an or with short-circuit evaluation: the second division
only runs when the first ratio fails the threshold. -/
def passoChaveComum (df1 df2 : DF) (acc : List String) (coluna : String) :
    Except String (List String) :=
  match df1.getCol? coluna, df2.getCol? coluna with
  | some c1, some c2 => do
    let ur1 ← uniqueRatioE c1 df1.nrows
    if mkRat 1 2 < ur1 then pure (acc ++ [coluna])
    else do
      let ur2 ← uniqueRatioE c2 df2.nrows
      if mkRat 1 2 < ur2 then pure (acc ++ [coluna]) else pure acc
  | _, _ => pure acc

/-- identificar_chaves_comuns (data_processing.py lines 267-288): a common
column is kept when its uniqueness ratio exceeds 0.5 in at least one of the
two DataFrames. -/
def identificar_chaves_comuns (df1 df2 : DF) (ord : List String) :
    Except String (List String) :=
  ord.foldlM (passoChaveComum df1 df2) []

/-- The four join modes accepted by the embedded pandas merge. -/
inductive Modo where
  | inner | left | right | outer
deriving DecidableEq, Repr

/-- Errors raised by the two join entry points.  The first five carry the
messages built by the repository code itself; pandasHowInvalido stands for
the exception pandas raises inside pd.merge when the how argument is not a
merge type it recognises (the repository never produces that message). -/
inductive JoinError where
  | chaveNaoEncontrada1 (chave : String)
  | chaveNaoEncontrada2 (chave : String)
  | colunaNaoEncontrada1 (coluna : String)
  | colunaNaoEncontrada2 (coluna : String)
  | metodoInvalido (metodo : String)
  | pandasHowInvalido (how : String)
deriving DecidableEq, Repr

/-- An entry of series.enum: a row index paired with the key cell there. -/
abbrev Entrada := Nat × Option String

/-- Matched row pairs of an inner merge, left-major: for each left row, every
right row with an equal key cell (pandas matches NaN keys with NaN keys). -/
def paresInner (k1 k2 : List (Option String)) :
    List (Option Entrada × Option Entrada) :=
  k1.enum.flatMap (fun ia =>
    (k2.enum.filter (fun jb => jb.2 == ia.2)).map (fun jb => (some ia, some jb)))

/-- Row pairs of a left merge: unmatched left rows survive with a missing
right side. -/
def paresLeft (k1 k2 : List (Option String)) :
    List (Option Entrada × Option Entrada) :=
  k1.enum.flatMap (fun ia =>
    let ms := k2.enum.filter (fun jb => jb.2 == ia.2)
    if ms.isEmpty then [(some ia, none)]
    else ms.map (fun jb => (some ia, some jb)))

/-- Row pairs of a right merge, right-major. -/
def paresRight (k1 k2 : List (Option String)) :
    List (Option Entrada × Option Entrada) :=
  k2.enum.flatMap (fun jb =>
    let ms := k1.enum.filter (fun ia => ia.2 == jb.2)
    if ms.isEmpty then [(none, some jb)]
    else ms.map (fun ia => (some ia, some jb)))

/-- Row pairs of an outer merge: the left-merge rows followed by the
unmatched right rows in right order. -/
def paresOuter (k1 k2 : List (Option String)) :
    List (Option Entrada × Option Entrada) :=
  paresLeft k1 k2 ++
    (k2.enum.filter (fun jb => !(k1.enum.any (fun ia => ia.2 == jb.2)))).map
      (fun jb => (none, some jb))

/-- Row pairs for each merge mode. -/
def paresModo (m : Modo) (k1 k2 : List (Option String)) :
    List (Option Entrada × Option Entrada) :=
  match m with
  | .inner => paresInner k1 k2
  | .left => paresLeft k1 k2
  | .right => paresRight k1 k2
  | .outer => paresOuter k1 k2

/-- The cell a source column contributes to an output row: its value at the
matched row index, or missing when that side did not match. -/
def celulaDe (cells : List (Option String)) : Option Entrada → Option String
  | none => none
  | some ia => cells.getD ia.1 none

/-- The key cell of an output row: the left key value when the left side is
present, otherwise the right key value. -/
def celulaChave (p : Option Entrada × Option Entrada) : Option String :=
  match p.1 with
  | some ia => ia.2
  | none =>
    match p.2 with
    | some jb => jb.2
    | none => none

/-- Modelled from pandas: pd.merge(d1, d2, on=chave, how=m) for a key column
present in both frames.  Output columns are the left columns in order (the
key column keeps its position and is the single merged key) followed by the
right columns except the key. -/
def mergeOn (d1 d2 : DF) (chave : String) (m : Modo) : DF :=
  let k1 := d1.cellsOf chave
  let k2 := d2.cellsOf chave
  let ps := paresModo m k1 k2
  { nrows := ps.length
    cols :=
      d1.cols.map (fun c =>
        if c.name = chave then { c with cells := ps.map celulaChave }
        else { c with cells := ps.map (fun p => celulaDe c.cells p.1) })
      ++ (d2.cols.filter (fun c => !(c.name == chave))).map
          (fun c => { c with cells := ps.map (fun p => celulaDe c.cells p.2) }) }

/-- The valid how strings of the repository contract. -/
def metodosValidos : List String := ["inner", "left", "right", "outer"]

/-- Parse a how string into a merge mode. -/
def parseModo (m : String) : Option Modo :=
  if m = "inner" then some .inner
  else if m = "left" then some .left
  else if m = "right" then some .right
  else if m = "outer" then some .outer
  else none

/-- Modelled from pandas: pd.merge(d1, d2, on=chave, how=how).  A how string
outside the four modes used by the repository makes pandas raise its own
exception (how="cross" is also rejected here because the call passes on=). -/
def pd_merge_on (d1 d2 : DF) (chave : String) (how : String) :
    Except JoinError DF :=
  match parseModo how with
  | some m => .ok (mergeOn d1 d2 chave m)
  | none => .error (.pandasHowInvalido how)

/-- df.add_prefix(p): prefix every column name. -/
def DF.comPrefixo (df : DF) (p : String) : DF :=
  { df with cols := df.cols.map (fun c => { c with name := p ++ c.name }) }

/-- df.rename(columns={de: para}): rename every column called de. -/
def DF.renomear (df : DF) (de para : String) : DF :=
  { df with cols := df.cols.map (fun c =>
      if c.name = de then { c with name := para } else c) }

/-- DataCrosser.cruzar_dataframes (data_crosser.py lines 97-142): validate
that both keys exist, prefix the columns with df1_/df2_, rename both key
columns to chave_juncao, and merge on that shared column.  The metodo string
is not validated here; it is passed straight to pd.merge. -/
def cruzar_dataframes (df1 df2 : DF) (chave_df1 chave_df2 metodo : String) :
    Except JoinError DF :=
  if chave_df1 ∉ df1.names then .error (.chaveNaoEncontrada1 chave_df1)
  else if chave_df2 ∉ df2.names then .error (.chaveNaoEncontrada2 chave_df2)
  else
    let d1 := (df1.comPrefixo "df1_").renomear ("df1_" ++ chave_df1) "chave_juncao"
    let d2 := (df2.comPrefixo "df2_").renomear ("df2_" ++ chave_df2) "chave_juncao"
    pd_merge_on d1 d2 "chave_juncao" metodo

/-- Modelled from pandas: pd.merge(df1, df2, left_on=c1, right_on=c2, how=m,
suffixes=(s1, s2)).  When the two key names coincide pandas drops the right
key column (merge.py appends it to right_drop), so a single key column
remains; column names occurring on both remaining sides get the suffixes. -/
def pd_merge_lr (df1 df2 : DF) (c1 c2 : String) (m : Modo) (s1 s2 : String) : DF :=
  let df2a := if c1 = c2 then
      { df2 with cols := df2.cols.filter (fun (c : Col) => !(c.name == c2)) }
    else df2
  let over := df1.names.filter (fun n => df2a.names.contains n)
  let d1 := { df1 with cols := df1.cols.map (fun (c : Col) =>
      if over.contains c.name then { c with name := c.name ++ s1 } else c) }
  let d2 := { df2a with cols := df2a.cols.map (fun (c : Col) =>
      if over.contains c.name then { c with name := c.name ++ s2 } else c) }
  let ps := paresModo m (df1.cellsOf c1) (df2.cellsOf c2)
  { nrows := ps.length
    cols :=
      d1.cols.map (fun c => { c with cells := ps.map (fun p => celulaDe c.cells p.1) })
      ++ d2.cols.map (fun c => { c with cells := ps.map (fun p => celulaDe c.cells p.2) }) }

/-- AnalisadorDados.cruzar_dados (app_completo.py lines 607-648): validates
both key columns and the metodo string (listing the valid modes) before
delegating to pd.merge with left_on/right_on and the default suffixes. -/
def cruzar_dados (df1 df2 : DF) (coluna_df1 coluna_df2 metodo : String) :
    Except JoinError DF :=
  if coluna_df1 ∉ df1.names then .error (.colunaNaoEncontrada1 coluna_df1)
  else if coluna_df2 ∉ df2.names then .error (.colunaNaoEncontrada2 coluna_df2)
  else if metodo ∉ metodosValidos then .error (.metodoInvalido metodo)
  else
    .ok (pd_merge_lr df1 df2 coluna_df1 coluna_df2
          ((parseModo metodo).getD .inner) "_1" "_2")

/-- The quality report returned by DataCrosser.avaliar_qualidade_cruzamento.
completude and qualidade_geral are Option Rat: none stands for the IEEE NaN
produced by the unguarded numpy division when the result has zero cells. -/
structure Relatorio where
  n_linhas_df1 : Nat
  n_linhas_df2 : Nat
  n_linhas_resultado : Nat
  taxa_correspondencia_df1 : Rat
  taxa_correspondencia_df2 : Rat
  completude : Option Rat
  qualidade_geral : Option Rat
deriving DecidableEq, Repr

/-- df.isna().sum().sum(): the number of missing cells. -/
def contarFaltantes (df : DF) : Nat :=
  (df.cols.map (fun c => c.cells.countP (fun x => x.isNone))).sum

/-- DataCrosser.avaliar_qualidade_cruzamento (data_crosser.py lines 181-218).
The match rates are guarded against a zero denominator; the completeness
division is not: with shape[0]*shape[1] = 0 the numpy scalar division yields
NaN (modelled none), which then propagates into qualidade_geral through
1 - NaN and the final mean. -/
def avaliar_qualidade_cruzamento (df_resultado df1_original df2_original : DF) :
    Relatorio :=
  let n1 := df1_original.nrows
  let n2 := df2_original.nrows
  let nr := df_resultado.nrows
  let taxa1 : Rat := if 0 < n1 then mkRat nr n1 else 0
  let taxa2 : Rat := if 0 < n2 then mkRat nr n2 else 0
  let celulas := df_resultado.nrows * df_resultado.cols.length
  let completude : Option Rat :=
    if celulas = 0 then none
    else some (1 - mkRat (contarFaltantes df_resultado) celulas)
  { n_linhas_df1 := n1
    n_linhas_df2 := n2
    n_linhas_resultado := nr
    taxa_correspondencia_df1 := taxa1
    taxa_correspondencia_df2 := taxa2
    completude := completude
    qualidade_geral := completude.map (fun c => (taxa1 + taxa2 + c) * mkRat 1 3) }

/-! ### Pure characterization of the key-discovery loops

For nonempty inputs the monadic loop bodies never throw, and the folds reduce
to filterMap over the iteration sequences.  These helpers are proved equal to
the embedded code; the claims below are stated about the embedded code. -/

/-- What the exact-name loop body appends (at most one candidate), assuming
rows are nonzero so the divisions succeed. -/
def candComum (df1 df2 : DF) (coluna : String) : Option Cand :=
  match df1.getCol? coluna, df2.getCol? coluna with
  | some c1, some c2 =>
    if mkRat 1 2 < uniqueRatio c1 df1.nrows ∧ mkRat 1 2 < uniqueRatio c2 df2.nrows then
      if valores c1 ≠ [] ∧ valores c2 ≠ [] then some (coluna, coluna, score c1 c2)
      else none
    else none
  | _, _ => none

/-- What the cross-name loop body appends (at most one candidate). -/
def candCruzado (n1 n2 : Nat) (p : Col × Col) : Option Cand :=
  if p.1.name = p.2.name then none
  else if p.1.kind = p.2.kind then
    if p.1.kind.isNumericKind then none
    else if p.1.kind.isTextKind then
      if mkRat 1 2 < uniqueRatio p.1 n1 ∧ mkRat 1 2 < uniqueRatio p.2 n2 then
        if valores p.1 ≠ [] ∧ valores p.2 ≠ [] then
          if mkRat 1 10 < score p.1 p.2 then some (p.1.name, p.2.name, score p.1 p.2)
          else none
        else none
      else none
    else none
  else none

/-- What the loop body of identificar_chaves_comuns appends. -/
def candChaveComum (df1 df2 : DF) (coluna : String) : Option String :=
  match df1.getCol? coluna, df2.getCol? coluna with
  | some c1, some c2 =>
    if mkRat 1 2 < uniqueRatio c1 df1.nrows ∨ mkRat 1 2 < uniqueRatio c2 df2.nrows then some coluna
    else none
  | _, _ => none

instance {e a : Type} [DecidableEq e] [DecidableEq a] : DecidableEq (Except e a) :=
  fun x y =>
    match x, y with
    | .ok u, .ok v =>
      match decEq u v with
      | isTrue h => isTrue (congrArg Except.ok h)
      | isFalse h => isFalse (fun hc => h (Except.ok.inj hc))
    | .error u, .error v =>
      match decEq u v with
      | isTrue h => isTrue (congrArg Except.error h)
      | isFalse h => isFalse (fun hc => h (Except.error.inj hc))
    | .ok _, .error _ => isFalse (fun hc => Except.noConfusion hc)
    | .error _, .ok _ => isFalse (fun hc => Except.noConfusion hc)

/-! ### Concrete example tables used by the counterexamples and witnesses -/

/-- Two-column table with identifier-like columns a and b. -/
def dfParA : DF :=
  { cols := [{ name := "a", kind := .obj, cells := [some "1", some "2"] },
             { name := "b", kind := .obj, cells := [some "x", some "y"] }],
    nrows := 2 }

/-- A second table with the same two columns and values. -/
def dfParB : DF :=
  { cols := [{ name := "a", kind := .obj, cells := [some "1", some "2"] },
             { name := "b", kind := .obj, cells := [some "x", some "y"] }],
    nrows := 2 }

/-- A table whose id column is fully unique (uniqueness ratio 1). -/
def dfAlta : DF :=
  { cols := [{ name := "id", kind := .obj, cells := [some "1", some "2"] }], nrows := 2 }

/-- A table whose id column is all-missing (uniqueness ratio 0). -/
def dfBaixa : DF :=
  { cols := [{ name := "id", kind := .obj, cells := [none, none] }], nrows := 2 }

/-- A one-row table with a datetime-kind column named d1c. -/
def dfData1 : DF :=
  { cols := [{ name := "d1c", kind := .datetime, cells := [some "2020-01-01"] }], nrows := 1 }

/-- A one-row table with a datetime-kind column named d2c holding the same value. -/
def dfData2 : DF :=
  { cols := [{ name := "d2c", kind := .datetime, cells := [some "2020-01-01"] }], nrows := 1 }

/-- Left join input: key value k twice, payload column x. -/
def dfJ1 : DF :=
  { cols := [{ name := "id", kind := .obj, cells := [some "k", some "k"] },
             { name := "x", kind := .obj, cells := [some "p", some "q"] }],
    nrows := 2 }

/-- Right join input: key value k twice, payload column y. -/
def dfJ2 : DF :=
  { cols := [{ name := "id", kind := .obj, cells := [some "k", some "k"] },
             { name := "y", kind := .obj, cells := [some "r", some "s"] }],
    nrows := 2 }

/-- The inner join of dfJ1 and dfJ2 on id: the 2x2 cross product of the
matching rows, with a single coalesced key column. -/
def dfJunta : DF :=
  { cols := [{ name := "chave_juncao", kind := .obj,
               cells := [some "k", some "k", some "k", some "k"] },
             { name := "df1_x", kind := .obj,
               cells := [some "p", some "p", some "q", some "q"] },
             { name := "df2_y", kind := .obj,
               cells := [some "r", some "s", some "r", some "s"] }],
    nrows := 4 }

/-- A result table with zero cells. -/
def dfZero : DF := { cols := [], nrows := 0 }

theorem except_bind_ok {ε α β : Type} (a : α) (f : α → Except ε β) :
    (Except.ok a >>= f : Except ε β) = f a := rfl

theorem except_bind_err {ε α β : Type} (e : ε) (f : α → Except ε β) :
    ((Except.error e : Except ε α) >>= f : Except ε β) = Except.error e := rfl

theorem except_pure_eq {ε α : Type} (a : α) : (pure a : Except ε α) = Except.ok a := rfl

theorem passoComum_eq (df1 df2 : DF) (h1 : df1.nrows ≠ 0) (h2 : df2.nrows ≠ 0)
    (acc : List Cand) (coluna : String) :
    passoComum df1 df2 acc coluna = .ok (acc ++ (candComum df1 df2 coluna).toList) := by
  unfold passoComum candComum
  cases df1.getCol? coluna <;> cases df2.getCol? coluna <;>
    simp only [uniqueRatioE, h1, h2, if_false, except_bind_ok, except_bind_err,
      except_pure_eq, Option.toList, List.append_nil]
  split_ifs <;> simp

theorem passoCruzado_eq (n1 n2 : Nat) (h1 : n1 ≠ 0) (h2 : n2 ≠ 0)
    (acc : List Cand) (p : Col × Col) :
    passoCruzado n1 n2 acc p = .ok (acc ++ (candCruzado n1 n2 p).toList) := by
  unfold passoCruzado candCruzado
  simp only [uniqueRatioE, h1, h2, if_false, except_bind_ok, except_bind_err,
    except_pure_eq, Option.toList, List.append_nil]
  split_ifs <;> simp

theorem passoChaveComum_eq (df1 df2 : DF) (h1 : df1.nrows ≠ 0) (h2 : df2.nrows ≠ 0)
    (acc : List String) (coluna : String) :
    passoChaveComum df1 df2 acc coluna
      = .ok (acc ++ (candChaveComum df1 df2 coluna).toList) := by
  unfold passoChaveComum candChaveComum
  cases df1.getCol? coluna with
  | none => simp [except_pure_eq]
  | some c1 =>
    cases df2.getCol? coluna with
    | none => simp [except_pure_eq]
    | some c2 =>
      simp only [uniqueRatioE, h1, h2, if_false, except_bind_ok, except_pure_eq]
      by_cases ha : mkRat 1 2 < uniqueRatio c1 df1.nrows
      · rw [if_pos ha, if_pos (Or.inl ha)]
        simp
      · rw [if_neg ha]
        by_cases hb : mkRat 1 2 < uniqueRatio c2 df2.nrows
        · rw [if_pos hb, if_pos (Or.inr hb)]
          simp
        · rw [if_neg hb, if_neg (by tauto)]
          simp

theorem foldlM_ok_of_filterMap {α β ε : Type} (g : List β → α → Except ε (List β))
    (f : α → Option β) (hg : ∀ acc a, g acc a = .ok (acc ++ (f a).toList)) :
    ∀ (l : List α) (acc : List β), l.foldlM g acc = .ok (acc ++ l.filterMap f) := by
  intro l
  induction l with
  | nil => intro acc; simp [List.foldlM_nil, except_pure_eq]
  | cons a t ih =>
    intro acc
    rw [List.foldlM_cons, hg, except_bind_ok, ih]
    cases hfa : f a <;> simp [List.filterMap_cons, hfa]

/-- For nonempty inputs, identificar_chaves_potenciais succeeds and returns
the stable descending sort of the two discovery passes. -/
theorem identificar_eq_ok (df1 df2 : DF) (ord : List String)
    (h1 : df1.nrows ≠ 0) (h2 : df2.nrows ≠ 0) :
    identificar_chaves_potenciais df1 df2 ord
      = .ok (List.insertionSort ordemScore
          (ord.filterMap (candComum df1 df2)
            ++ (prodCols df1 df2).filterMap
                (candCruzado df1.nrows df2.nrows))) := by
  unfold identificar_chaves_potenciais
  rw [foldlM_ok_of_filterMap _ _ (passoComum_eq df1 df2 h1 h2) ord [], except_bind_ok,
    foldlM_ok_of_filterMap _ _ (passoCruzado_eq df1.nrows df2.nrows h1 h2), except_bind_ok,
    except_pure_eq, List.nil_append]

/-- For nonempty inputs, identificar_chaves_comuns succeeds. -/
theorem chaves_comuns_eq_ok (df1 df2 : DF) (ord : List String)
    (h1 : df1.nrows ≠ 0) (h2 : df2.nrows ≠ 0) :
    identificar_chaves_comuns df1 df2 ord
      = .ok (ord.filterMap (candChaveComum df1 df2)) := by
  unfold identificar_chaves_comuns
  rw [foldlM_ok_of_filterMap _ _ (passoChaveComum_eq df1 df2 h1 h2) ord [], List.nil_append]

theorem candComum_names (df1 df2 : DF) (coluna : String) (x : Cand)
    (h : candComum df1 df2 coluna = some x) : x.1 = coluna ∧ x.2.1 = coluna := by
  unfold candComum at h
  split at h
  · split_ifs at h <;> simp_all
    subst h
    exact ⟨rfl, rfl⟩
  · simp at h

theorem candChaveComum_names (df1 df2 : DF) (coluna x : String)
    (h : candChaveComum df1 df2 coluna = some x) : x = coluna := by
  unfold candChaveComum at h
  split at h
  · split_ifs at h <;> simp_all
  · simp at h

theorem isTextKind_not_numeric (k : DtypeKind) (h : k.isTextKind = true) :
    k.isNumericKind = false := by
  cases k <;> simp_all [DtypeKind.isTextKind, DtypeKind.isNumericKind]

theorem valores_ne_nil_of_ratio {c : Col} {n : Nat} (h : mkRat 1 2 < uniqueRatio c n) :
    valores c ≠ [] := by
  intro he
  have hz : nunique c = 0 := by
    unfold nunique
    unfold valores at he
    simp [he]
  rw [uniqueRatio, hz] at h
  rw [Rat.mkRat_eq_div, Rat.mkRat_eq_div] at h
  norm_num at h

theorem candCruzado_spec (n1 n2 : Nat) (a b : Col) :
    candCruzado n1 n2 (a, b)
      = if a.name ≠ b.name ∧ a.kind = b.kind ∧ a.kind.isTextKind = true
            ∧ mkRat 1 2 < uniqueRatio a n1 ∧ mkRat 1 2 < uniqueRatio b n2 ∧ mkRat 1 10 < score a b
        then some (a.name, b.name, score a b) else none := by
  unfold candCruzado
  by_cases hn : a.name = b.name
  · rw [if_pos hn, if_neg (by tauto)]
  · rw [if_neg hn]
    by_cases hk : a.kind = b.kind
    · rw [if_pos hk]
      by_cases hnum2 : a.kind.isNumericKind = true
      · have ht : ¬ a.kind.isTextKind = true := by
          intro hx
          rw [isTextKind_not_numeric _ hx] at hnum2
          exact absurd hnum2 (by simp)
        rw [if_pos hnum2, if_neg (by tauto)]
      · rw [if_neg hnum2]
        by_cases ht : a.kind.isTextKind = true
        · rw [if_pos ht]
          by_cases hr1 : mkRat 1 2 < uniqueRatio a n1
          · by_cases hr2 : mkRat 1 2 < uniqueRatio b n2
            · have hv1 := valores_ne_nil_of_ratio hr1
              have hv2 := valores_ne_nil_of_ratio hr2
              rw [if_pos ⟨hr1, hr2⟩, if_pos ⟨hv1, hv2⟩]
              by_cases hs : mkRat 1 10 < score a b
              · rw [if_pos hs, if_pos ⟨hn, hk, ht, hr1, hr2, hs⟩]
              · rw [if_neg hs, if_neg (by tauto)]
            · rw [if_neg (by tauto), if_neg (by tauto)]
          · rw [if_neg (by tauto), if_neg (by tauto)]
        · rw [if_neg ht, if_neg (by tauto)]
    · rw [if_neg hk, if_neg (by tauto)]

theorem candCruzado_names (n1 n2 : Nat) (p : Col × Col) (x : Cand)
    (h : candCruzado n1 n2 p = some x) :
    x = (p.1.name, p.2.name, score p.1 p.2) ∧ p.1.name ≠ p.2.name := by
  obtain ⟨a, b⟩ := p
  rw [candCruzado_spec] at h
  split_ifs at h with hc
  simp at h
  exact ⟨h.symm, hc.1⟩

theorem score_nonneg (c1 c2 : Col) : 0 ≤ score c1 c2 := by
  rw [score, Rat.mkRat_eq_div]
  positivity

theorem score_le_one (c1 c2 : Col) (h : valores c1 ≠ []) : score c1 c2 ≤ 1 := by
  rw [score, Rat.mkRat_eq_div]
  have hlen : 0 < (valores c1).length := List.length_pos.mpr h
  have hmax : 0 < max (valores c1).length (valores c2).length :=
    lt_of_lt_of_le hlen (le_max_left _ _)
  have hden : (0 : Rat)
      < ((max (valores c1).length (valores c2).length : Nat) : Rat) := by
    exact_mod_cast hmax
  rw [div_le_one hden]
  have hnum : sobreposicao c1 c2 ≤ max (valores c1).length (valores c2).length := by
    unfold sobreposicao
    exact le_trans (List.length_filter_le _ _) (le_max_left _ _)
  exact_mod_cast hnum

theorem candComum_spec (df1 df2 : DF) (c : String) (c1 c2 : Col)
    (hc1 : df1.getCol? c = some c1) (hc2 : df2.getCol? c = some c2) :
    candComum df1 df2 c
      = if mkRat 1 2 < uniqueRatio c1 df1.nrows ∧ mkRat 1 2 < uniqueRatio c2 df2.nrows
        then some (c, c, score c1 c2) else none := by
  unfold candComum
  rw [hc1, hc2]
  show (if mkRat 1 2 < uniqueRatio c1 df1.nrows ∧ mkRat 1 2 < uniqueRatio c2 df2.nrows then
      if valores c1 ≠ [] ∧ valores c2 ≠ [] then some (c, c, score c1 c2) else none
    else none) = _
  by_cases hr : mkRat 1 2 < uniqueRatio c1 df1.nrows ∧ mkRat 1 2 < uniqueRatio c2 df2.nrows
  · rw [if_pos hr, if_pos ⟨valores_ne_nil_of_ratio hr.1, valores_ne_nil_of_ratio hr.2⟩,
      if_pos hr]
  · rw [if_neg hr, if_neg hr]

theorem candChaveComum_spec (df1 df2 : DF) (c : String) (c1 c2 : Col)
    (hc1 : df1.getCol? c = some c1) (hc2 : df2.getCol? c = some c2) :
    candChaveComum df1 df2 c
      = if mkRat 1 2 < uniqueRatio c1 df1.nrows ∨ mkRat 1 2 < uniqueRatio c2 df2.nrows
        then some c else none := by
  unfold candChaveComum
  rw [hc1, hc2]

theorem getCol?_name_mem {df : DF} {c : String} {col : Col}
    (h : df.getCol? c = some col) : col.name = c ∧ col ∈ df.cols := by
  unfold DF.getCol? at h
  refine ⟨?_, List.mem_of_find?_eq_some h⟩
  have := List.find?_some h
  simpa using this

theorem getCol?_mem_names {df : DF} {c : String} {col : Col}
    (h : df.getCol? c = some col) : c ∈ df.names := by
  obtain ⟨hname, hmem⟩ := getCol?_name_mem h
  exact hname ▸ List.mem_map_of_mem Col.name hmem

theorem validOrd_mem {df1 df2 : DF} {ord : List String} (hv : ValidOrd df1 df2 ord)
    (c : String) : c ∈ ord ↔ (c ∈ df1.names ∧ c ∈ df2.names) := by
  unfold ValidOrd at hv
  rw [hv.mem_iff]
  unfold colunasComuns
  simp [List.mem_filter, List.mem_dedup]

theorem mem_prodCols {df1 df2 : DF} {p : Col × Col} :
    p ∈ prodCols df1 df2 ↔ p.1 ∈ df1.cols ∧ p.2 ∈ df2.cols := by
  unfold prodCols
  constructor
  · intro h
    obtain ⟨a, ha, hb⟩ := List.mem_flatMap.mp h
    obtain ⟨b, hb2, he⟩ := List.mem_map.mp hb
    rw [← he]
    exact ⟨ha, hb2⟩
  · intro ⟨h1, h2⟩
    refine List.mem_flatMap.mpr ⟨p.1, h1, ?_⟩
    refine List.mem_map.mpr ⟨p.2, h2, rfl⟩

/-- Membership in a successful identificar_chaves_potenciais result comes
from one of the two discovery passes. -/
theorem mem_identificar_iff {df1 df2 : DF} {ord : List String} {out : List Cand}
    (h1 : df1.nrows ≠ 0) (h2 : df2.nrows ≠ 0)
    (hok : identificar_chaves_potenciais df1 df2 ord = .ok out) (x : Cand) :
    x ∈ out ↔ x ∈ ord.filterMap (candComum df1 df2)
      ∨ x ∈ (prodCols df1 df2).filterMap (candCruzado df1.nrows df2.nrows) := by
  rw [identificar_eq_ok df1 df2 ord h1 h2] at hok
  have hout : out = List.insertionSort ordemScore (ord.filterMap (candComum df1 df2)
      ++ (prodCols df1 df2).filterMap (candCruzado df1.nrows df2.nrows)) := by
    injection hok with hh
    exact hh.symm
  rw [hout, (List.perm_insertionSort ordemScore _).mem_iff, List.mem_append]

theorem filter_score_orderedInsert (q : Rat) (a : Cand) (l : List Cand) :
    (List.orderedInsert ordemScore a l).filter (fun x => x.2.2 == q)
      = if a.2.2 = q then a :: l.filter (fun x => x.2.2 == q)
        else l.filter (fun x => x.2.2 == q) := by
  induction l with
  | nil =>
    by_cases hq : a.2.2 = q <;> simp [List.orderedInsert, hq]
  | cons b t ih =>
    by_cases hr : ordemScore a b
    · rw [List.orderedInsert, if_pos hr]
      by_cases hq : a.2.2 = q <;> simp [List.filter_cons, hq]
    · rw [List.orderedInsert, if_neg hr]
      have hlt : a.2.2 < b.2.2 := by
        unfold ordemScore at hr
        exact not_le.mp hr
      by_cases hq : a.2.2 = q
      · have hb : ¬ (b.2.2 = q) := by
          intro hbq
          rw [hq, hbq] at hlt
          exact lt_irrefl q hlt
        simp [List.filter_cons, hb, hq, ih]
      · simp [List.filter_cons, hq, ih]

theorem filter_score_insertionSort (q : Rat) (l : List Cand) :
    (List.insertionSort ordemScore l).filter (fun x => x.2.2 == q)
      = l.filter (fun x => x.2.2 == q) := by
  induction l with
  | nil => rfl
  | cons a t ih =>
    rw [List.insertionSort, filter_score_orderedInsert, ih]
    by_cases hq : a.2.2 = q <;> simp [List.filter_cons, hq]

/-- Claim C1 (amended): for nonempty inputs, key discovery always succeeds
and its result is sorted descending by score; tied candidates keep the
discovery order exactly: at every fixed score value, the result lists first
the tied same-name pairs, in the iteration order of the set of common
column names (which is hash-dependent in the host language), and then the
tied cross-name pairs, in column position order (table 1 outer, table 2
inner, the order of prodCols); consequently permuting the set order
permutes the result rather than leaving it unchanged. -/
theorem c1_sorted_and_perm_invariant (df1 df2 : DF) (ord1 ord2 : List String)
    (h1 : df1.nrows ≠ 0) (h2 : df2.nrows ≠ 0) (hp : ord1.Perm ord2) :
    ∃ l1 l2, identificar_chaves_potenciais df1 df2 ord1 = .ok l1
      ∧ identificar_chaves_potenciais df1 df2 ord2 = .ok l2
      ∧ l1.Pairwise (fun x y : Cand => y.2.2 ≤ x.2.2)
      ∧ (∀ q : Rat, l1.filter (fun x => x.2.2 == q)
          = (ord1.filterMap (candComum df1 df2)).filter (fun x => x.2.2 == q)
            ++ ((prodCols df1 df2).filterMap
                (candCruzado df1.nrows df2.nrows)).filter (fun x => x.2.2 == q))
      ∧ l1.Perm l2 := by
  refine ⟨_, _, identificar_eq_ok df1 df2 ord1 h1 h2,
    identificar_eq_ok df1 df2 ord2 h1 h2, ?_, ?_, ?_⟩
  · have hs := List.sorted_insertionSort ordemScore
      (ord1.filterMap (candComum df1 df2)
        ++ (prodCols df1 df2).filterMap (candCruzado df1.nrows df2.nrows))
    exact hs.imp (fun h => h)
  · intro q
    rw [filter_score_insertionSort, List.filter_append]
  · have hA : (ord1.filterMap (candComum df1 df2)).Perm
        (ord2.filterMap (candComum df1 df2)) := hp.filterMap _
    have hB := hA.append_right
      ((prodCols df1 df2).filterMap (candCruzado df1.nrows df2.nrows))
    exact ((List.perm_insertionSort ordemScore _).trans hB).trans
      (List.perm_insertionSort ordemScore _).symm

/-- Claim C1 (counterexample): both ["a","b"] and ["b","a"] are legitimate
iteration orders of the common-column set of dfParA and dfParB, yet key
discovery returns differently ordered sequences for them, so the order of
tied same-name pairs depends on the hash-iteration order of the host set and
is not the column position order of table 1. -/
theorem c1_order_depends_on_set_iteration :
    ValidOrd dfParA dfParB ["a", "b"] ∧ ValidOrd dfParA dfParB ["b", "a"]
    ∧ identificar_chaves_potenciais dfParA dfParB ["a", "b"]
        ≠ identificar_chaves_potenciais dfParA dfParB ["b", "a"] := by
  refine ⟨by decide, by decide, by decide⟩

/-- Witness for Claim C1: the amended theorem applied to the concrete pair
of tables and the two iteration orders. -/
theorem c1_sorted_and_perm_invariant_witness :
    ∃ l1 l2, identificar_chaves_potenciais dfParA dfParB ["a", "b"] = .ok l1
      ∧ identificar_chaves_potenciais dfParA dfParB ["b", "a"] = .ok l2
      ∧ l1.Pairwise (fun x y : Cand => y.2.2 ≤ x.2.2)
      ∧ (∀ q : Rat, l1.filter (fun x => x.2.2 == q)
          = ((["a", "b"] : List String).filterMap (candComum dfParA dfParB)).filter
              (fun x => x.2.2 == q)
            ++ ((prodCols dfParA dfParB).filterMap
                (candCruzado dfParA.nrows dfParB.nrows)).filter (fun x => x.2.2 == q))
      ∧ l1.Perm l2 :=
  c1_sorted_and_perm_invariant dfParA dfParB ["a", "b"] ["b", "a"]
    (by decide) (by decide) (by decide)

theorem not_mem_cross_of_eq_names (df1 df2 : DF) (c : String) (s : Rat) :
    (c, c, s) ∉ (prodCols df1 df2).filterMap (candCruzado df1.nrows df2.nrows) := by
  intro hx
  obtain ⟨p, _, he⟩ := List.mem_filterMap.mp hx
  obtain ⟨hxe, hne⟩ := candCruzado_names _ _ p _ he
  have h1 : c = p.1.name := congrArg Prod.fst hxe
  have h2 : c = p.2.name := congrArg (fun q : Cand => q.2.1) hxe
  exact hne (h1 ▸ h2 ▸ rfl)

/-- Claim C3 (amended): in identificar_chaves_potenciais a common column
name is emitted as an exact-name candidate (name, name, score) exactly when
its uniqueness ratio exceeds 1/2 in both tables, and the emitted score is
the overlap score, even when it is 0; however the near-duplicate
identificar_chaves_comuns accepts a common column already when the ratio
exceeds 1/2 in at least one table. -/
theorem c3_exact_name_acceptance (df1 df2 : DF) (ord : List String) (c : String)
    (c1 c2 : Col) (out : List Cand) (lst : List String)
    (h1 : df1.nrows ≠ 0) (h2 : df2.nrows ≠ 0) (hv : ValidOrd df1 df2 ord)
    (hc1 : df1.getCol? c = some c1) (hc2 : df2.getCol? c = some c2)
    (hok : identificar_chaves_potenciais df1 df2 ord = .ok out)
    (hok2 : identificar_chaves_comuns df1 df2 ord = .ok lst) :
    ((∃ s, (c, c, s) ∈ out) ↔
        (mkRat 1 2 < uniqueRatio c1 df1.nrows ∧ mkRat 1 2 < uniqueRatio c2 df2.nrows))
    ∧ (∀ s, (c, c, s) ∈ out → s = score c1 c2)
    ∧ (c ∈ lst ↔
        (mkRat 1 2 < uniqueRatio c1 df1.nrows ∨ mkRat 1 2 < uniqueRatio c2 df2.nrows)) := by
  have hcm : c ∈ ord := (validOrd_mem hv c).mpr ⟨getCol?_mem_names hc1, getCol?_mem_names hc2⟩
  have hval : ∀ s : Rat, (c, c, s) ∈ out →
      (mkRat 1 2 < uniqueRatio c1 df1.nrows ∧ mkRat 1 2 < uniqueRatio c2 df2.nrows)
        ∧ s = score c1 c2 := by
    intro s hs
    rcases (mem_identificar_iff h1 h2 hok _).mp hs with hA | hB
    · obtain ⟨a, _, he⟩ := List.mem_filterMap.mp hA
      have hna : c = a := (candComum_names _ _ _ _ he).1
      subst hna
      rw [candComum_spec df1 df2 c c1 c2 hc1 hc2] at he
      split_ifs at he with hcond
      · simp at he
        exact ⟨hcond, he.symm⟩
    · exact absurd hB (not_mem_cross_of_eq_names df1 df2 c s)
  refine ⟨⟨?_, ?_⟩, fun s hs => (hval s hs).2, ?_⟩
  · rintro ⟨s, hs⟩
    exact (hval s hs).1
  · intro hr
    refine ⟨score c1 c2, (mem_identificar_iff h1 h2 hok _).mpr (Or.inl ?_)⟩
    refine List.mem_filterMap.mpr ⟨c, hcm, ?_⟩
    rw [candComum_spec df1 df2 c c1 c2 hc1 hc2, if_pos hr]
  · rw [chaves_comuns_eq_ok df1 df2 ord h1 h2] at hok2
    have hlst : lst = ord.filterMap (candChaveComum df1 df2) := by
      injection hok2 with hh
      exact hh.symm
    subst hlst
    constructor
    · intro hmem
      obtain ⟨a, _, he⟩ := List.mem_filterMap.mp hmem
      have hna : c = a := candChaveComum_names _ _ _ _ he
      subst hna
      rw [candChaveComum_spec df1 df2 c c1 c2 hc1 hc2] at he
      split_ifs at he with hcond
      · exact hcond
    · intro hr
      refine List.mem_filterMap.mpr ⟨c, hcm, ?_⟩
      rw [candChaveComum_spec df1 df2 c c1 c2 hc1 hc2, if_pos hr]

/-- Claim C3 (counterexample): the id column of dfBaixa is all-missing, so
its uniqueness ratio is 0 in that table, yet identificar_chaves_comuns
accepts id as a key candidate (the test is an or, not the claimed
both-tables test); identificar_chaves_potenciais does reject it. -/
theorem c3_chaves_comuns_accepts_with_or :
    identificar_chaves_comuns dfAlta dfBaixa ["id"] = .ok ["id"]
    ∧ uniqueRatio { name := "id", kind := .obj, cells := [none, none] } dfBaixa.nrows = 0
    ∧ ValidOrd dfAlta dfBaixa ["id"]
    ∧ identificar_chaves_potenciais dfAlta dfBaixa ["id"] = .ok [] := by
  refine ⟨by decide, by decide, by decide, by decide⟩

/-- Witness for Claim C3: the amended theorem applied to dfAlta and dfBaixa,
whose shared id column has uniqueness ratio 1 and 0 respectively. -/
theorem c3_exact_name_acceptance_witness :
    ((∃ s, ("id", "id", s) ∈ ([] : List Cand)) ↔
        (mkRat 1 2 < uniqueRatio { name := "id", kind := .obj, cells := [some "1", some "2"] } dfAlta.nrows
          ∧ mkRat 1 2 < uniqueRatio { name := "id", kind := .obj, cells := [none, none] } dfBaixa.nrows))
    ∧ (∀ s, ("id", "id", s) ∈ ([] : List Cand) →
        s = score { name := "id", kind := .obj, cells := [some "1", some "2"] }
              { name := "id", kind := .obj, cells := [none, none] })
    ∧ (("id" ∈ ["id"]) ↔
        (mkRat 1 2 < uniqueRatio { name := "id", kind := .obj, cells := [some "1", some "2"] } dfAlta.nrows
          ∨ mkRat 1 2 < uniqueRatio { name := "id", kind := .obj, cells := [none, none] } dfBaixa.nrows)) :=
  c3_exact_name_acceptance dfAlta dfBaixa ["id"] "id" _ _ [] ["id"]
    (by decide) (by decide) (by decide) (by decide) (by decide) (by decide) (by decide)

theorem candComum_score_bounds (df1 df2 : DF) (a : String) (x : Cand)
    (h : candComum df1 df2 a = some x) : 0 ≤ x.2.2 ∧ x.2.2 ≤ 1 := by
  unfold candComum at h
  split at h
  · split_ifs at h with hr hv
    simp at h
    rw [← h]
    exact ⟨score_nonneg _ _, score_le_one _ _ hv.1⟩
  · simp at h

theorem candCruzado_score_bounds (n1 n2 : Nat) (p : Col × Col) (x : Cand)
    (h : candCruzado n1 n2 p = some x) : 0 ≤ x.2.2 ∧ x.2.2 ≤ 1 := by
  obtain ⟨a, b⟩ := p
  rw [candCruzado_spec] at h
  split_ifs at h with hc
  simp at h
  rw [← h]
  exact ⟨score_nonneg _ _, score_le_one _ _ (valores_ne_nil_of_ratio hc.2.2.2.1)⟩

theorem identificar_score_bounds {df1 df2 : DF} {ord : List String} {out : List Cand}
    (h1 : df1.nrows ≠ 0) (h2 : df2.nrows ≠ 0)
    (hok : identificar_chaves_potenciais df1 df2 ord = .ok out) :
    ∀ x ∈ out, 0 ≤ x.2.2 ∧ x.2.2 ≤ 1 := by
  intro x hx
  rcases (mem_identificar_iff h1 h2 hok x).mp hx with hA | hB
  · obtain ⟨a, _, he⟩ := List.mem_filterMap.mp hA
    exact candComum_score_bounds _ _ _ _ he
  · obtain ⟨p, _, he⟩ := List.mem_filterMap.mp hB
    exact candCruzado_score_bounds _ _ _ _ he

theorem col_eq_of_name_eq {df : DF} (hd : df.names.Nodup) {a b : Col}
    (ha : a ∈ df.cols) (hb : b ∈ df.cols) (h : a.name = b.name) : a = b :=
  List.inj_on_of_nodup_map hd ha hb h

/-- Claim C4 (amended): a cross-name candidate is emitted exactly when the
two columns have the same dtype kind, that kind is a text kind (so numeric
and equally-kinded non-text pairs such as datetime-datetime are skipped),
both uniqueness ratios exceed 1/2 and the overlap score strictly exceeds
1/10; every emitted candidate score lies in [0, 1] and equals the overlap
score of the pair. -/
theorem c4_cross_name_emission (df1 df2 : DF) (ord : List String) (ca cb : Col)
    (out : List Cand)
    (h1 : df1.nrows ≠ 0) (h2 : df2.nrows ≠ 0)
    (hd1 : df1.names.Nodup) (hd2 : df2.names.Nodup)
    (hca : ca ∈ df1.cols) (hcb : cb ∈ df2.cols) (hne : ca.name ≠ cb.name)
    (hok : identificar_chaves_potenciais df1 df2 ord = .ok out) :
    ((∃ s, (ca.name, cb.name, s) ∈ out) ↔
        (ca.kind = cb.kind ∧ ca.kind.isTextKind = true
          ∧ mkRat 1 2 < uniqueRatio ca df1.nrows ∧ mkRat 1 2 < uniqueRatio cb df2.nrows
          ∧ mkRat 1 10 < score ca cb))
    ∧ (∀ s, (ca.name, cb.name, s) ∈ out → s = score ca cb)
    ∧ (∀ x ∈ out, 0 ≤ x.2.2 ∧ x.2.2 ≤ 1) := by
  have hval : ∀ s : Rat, (ca.name, cb.name, s) ∈ out →
      (ca.kind = cb.kind ∧ ca.kind.isTextKind = true
        ∧ mkRat 1 2 < uniqueRatio ca df1.nrows ∧ mkRat 1 2 < uniqueRatio cb df2.nrows
        ∧ mkRat 1 10 < score ca cb) ∧ s = score ca cb := by
    intro s hs
    rcases (mem_identificar_iff h1 h2 hok _).mp hs with hA | hB
    · obtain ⟨a, _, he⟩ := List.mem_filterMap.mp hA
      obtain ⟨he1, he2⟩ := candComum_names _ _ _ _ he
      exact absurd (he1.trans he2.symm) hne
    · obtain ⟨p, hp, he⟩ := List.mem_filterMap.mp hB
      obtain ⟨hpm1, hpm2⟩ := mem_prodCols.mp hp
      obtain ⟨hxe, _⟩ := candCruzado_names _ _ _ _ he
      have hn1 : p.1.name = ca.name := (congrArg Prod.fst hxe).symm
      have hn2 : p.2.name = cb.name := (congrArg (fun q : Cand => q.2.1) hxe).symm
      have hpa : p.1 = ca := col_eq_of_name_eq hd1 hpm1 hca hn1
      have hpb : p.2 = cb := col_eq_of_name_eq hd2 hpm2 hcb hn2
      obtain ⟨a, b⟩ := p
      simp only at hpa hpb
      subst hpa
      subst hpb
      rw [candCruzado_spec] at he
      split_ifs at he with hcond
      simp at he
      exact ⟨⟨hcond.2.1, hcond.2.2.1, hcond.2.2.2.1, hcond.2.2.2.2.1, hcond.2.2.2.2.2⟩,
        he.symm⟩
  refine ⟨⟨?_, ?_⟩, fun s hs => (hval s hs).2, identificar_score_bounds h1 h2 hok⟩
  · rintro ⟨s, hs⟩
    exact (hval s hs).1
  · intro hr
    refine ⟨score ca cb, (mem_identificar_iff h1 h2 hok _).mpr (Or.inr ?_)⟩
    refine List.mem_filterMap.mpr ⟨(ca, cb), mem_prodCols.mpr ⟨hca, hcb⟩, ?_⟩
    rw [candCruzado_spec, if_pos ⟨hne, hr.1, hr.2.1, hr.2.2.1, hr.2.2.2.1, hr.2.2.2.2⟩]

/-- Claim C4 (counterexample): two datetime-kind columns with different
names, full uniqueness and full overlap are not emitted as a cross-name
candidate, although neither kind is numeric and every threshold in the claim
is met: the code requires the shared kind to be a text kind. -/
theorem c4_datetime_pair_not_emitted :
    identificar_chaves_potenciais dfData1 dfData2 [] = .ok []
    ∧ ValidOrd dfData1 dfData2 []
    ∧ DtypeKind.datetime.isNumericKind = false
    ∧ mkRat 1 2 < uniqueRatio { name := "d1c", kind := .datetime, cells := [some "2020-01-01"] } dfData1.nrows
    ∧ mkRat 1 2 < uniqueRatio { name := "d2c", kind := .datetime, cells := [some "2020-01-01"] } dfData2.nrows
    ∧ mkRat 1 10 < score { name := "d1c", kind := .datetime, cells := [some "2020-01-01"] }
        { name := "d2c", kind := .datetime, cells := [some "2020-01-01"] } := by
  refine ⟨by decide, by decide, by decide, by decide, by decide, by decide⟩

/-- Witness for Claim C4: the amended theorem applied to the text columns x
and y of the concrete join tables (overlap score 0, so no emission, and the
acceptance conditions indeed fail). -/
theorem c4_cross_name_emission_witness :
    ((∃ s, ("x", "y", s) ∈ ([] : List Cand)) ↔
        (DtypeKind.obj = DtypeKind.obj ∧ DtypeKind.obj.isTextKind = true
          ∧ mkRat 1 2 < uniqueRatio { name := "x", kind := .obj, cells := [some "p", some "q"] } dfJ1.nrows
          ∧ mkRat 1 2 < uniqueRatio { name := "y", kind := .obj, cells := [some "r", some "s"] } dfJ2.nrows
          ∧ mkRat 1 10 < score { name := "x", kind := .obj, cells := [some "p", some "q"] }
              { name := "y", kind := .obj, cells := [some "r", some "s"] }))
    ∧ (∀ s, ("x", "y", s) ∈ ([] : List Cand) →
        s = score { name := "x", kind := .obj, cells := [some "p", some "q"] }
              { name := "y", kind := .obj, cells := [some "r", some "s"] })
    ∧ (∀ x ∈ ([] : List Cand), 0 ≤ x.2.2 ∧ x.2.2 ≤ 1) :=
  c4_cross_name_emission dfJ1 dfJ2 ["id"]
    { name := "x", kind := .obj, cells := [some "p", some "q"] }
    { name := "y", kind := .obj, cells := [some "r", some "s"] } []
    (by decide) (by decide) (by decide) (by decide) (by decide) (by decide)
    (by decide) (by decide)

/-! ### Facts about the column renaming performed by cruzar_dataframes -/

theorem str_append_cancel (p a b : String) (h : p ++ a = p ++ b) : a = b := by
  have h2 := congrArg String.data h
  simp [String.data_append] at h2
  exact String.ext h2

theorem pref1_ne_cj (a : String) : "df1_" ++ a ≠ "chave_juncao" := by
  intro h
  have h2 := congrArg String.data h
  simp [String.data_append] at h2

theorem pref2_ne_cj (a : String) : "df2_" ++ a ≠ "chave_juncao" := by
  intro h
  have h2 := congrArg String.data h
  simp [String.data_append] at h2

theorem pref1_ne_pref2 (a b : String) : "df1_" ++ a ≠ "df2_" ++ b := by
  intro h
  have h2 := congrArg String.data h
  simp [String.data_append] at h2

theorem comPrefixo_renomear_cols (df : DF) (p k cj : String)
    (hcancel : ∀ a b : String, p ++ a = p ++ b → a = b) :
    ((df.comPrefixo p).renomear (p ++ k) cj).cols
      = df.cols.map (fun c => if c.name = k then { c with name := cj }
          else { c with name := p ++ c.name }) := by
  unfold DF.comPrefixo DF.renomear
  simp only [List.map_map]
  apply List.map_congr_left
  intro c _
  by_cases hc : c.name = k
  · simp [Function.comp, hc]
  · have hne : ¬ (p ++ c.name = p ++ k) := fun hx => hc (hcancel _ _ hx)
    simp [Function.comp, hc, hne]

theorem comPrefixo_renomear_names (df : DF) (p k cj : String)
    (hcancel : ∀ a b : String, p ++ a = p ++ b → a = b) :
    ((df.comPrefixo p).renomear (p ++ k) cj).names
      = df.names.map (fun o => if o = k then cj else p ++ o) := by
  unfold DF.names
  rw [comPrefixo_renomear_cols df p k cj hcancel]
  simp only [List.map_map]
  apply List.map_congr_left
  intro c _
  by_cases hc : c.name = k <;> simp [Function.comp, hc]

theorem comPrefixo_renomear_getCol (df : DF) (p k cj : String) (ck : Col)
    (hcancel : ∀ a b : String, p ++ a = p ++ b → a = b)
    (hcj : ∀ a : String, p ++ a ≠ cj)
    (hk : df.getCol? k = some ck) :
    ((df.comPrefixo p).renomear (p ++ k) cj).getCol? cj = some { ck with name := cj } := by
  have hkname : ck.name = k := (getCol?_name_mem hk).1
  unfold DF.getCol?
  rw [comPrefixo_renomear_cols df p k cj hcancel, List.find?_map]
  have hfn : ((fun c : Col => c.name == cj) ∘
      (fun c : Col => if c.name = k then { c with name := cj }
        else { c with name := p ++ c.name })) = (fun c : Col => c.name == k) := by
    funext c
    by_cases hc : c.name = k
    · simp [Function.comp, hc]
    · simp [Function.comp, hc, hcj c.name]
  rw [hfn]
  have : df.cols.find? (fun c => c.name == k) = some ck := hk
  rw [this]
  simp [hkname]

theorem comPrefixo_renomear_cellsOf (df : DF) (p k cj : String) (ck : Col)
    (hcancel : ∀ a b : String, p ++ a = p ++ b → a = b)
    (hcj : ∀ a : String, p ++ a ≠ cj)
    (hk : df.getCol? k = some ck) :
    ((df.comPrefixo p).renomear (p ++ k) cj).cellsOf cj = ck.cells := by
  unfold DF.cellsOf
  rw [comPrefixo_renomear_getCol df p k cj ck hcancel hcj hk]
  rfl

theorem mergeOn_names (d1 d2 : DF) (chave : String) (m : Modo) :
    (mergeOn d1 d2 chave m).names
      = d1.names ++ d2.names.filter (fun n => !(n == chave)) := by
  unfold mergeOn DF.names
  simp only [List.map_append, List.map_map]
  congr 1
  · apply List.map_congr_left
    intro c _
    by_cases hc : c.name = chave <;> simp [Function.comp, hc]
  · rw [List.filter_map]
    apply List.map_congr_left
    intro c _
    simp [Function.comp]

theorem mergeOn_nrows (d1 d2 : DF) (chave : String) (m : Modo) :
    (mergeOn d1 d2 chave m).nrows
      = (paresModo m (d1.cellsOf chave) (d2.cellsOf chave)).length := rfl

theorem find?_name_map (l : List Col) (F : Col → Col) (nm : String)
    (hF : ∀ c, (F c).name = c.name) :
    (l.map F).find? (fun c => c.name == nm) = (l.find? (fun c => c.name == nm)).map F := by
  rw [List.find?_map]
  have hfn : ((fun c : Col => c.name == nm) ∘ F) = (fun c : Col => c.name == nm) := by
    funext c
    simp [Function.comp, hF c]
  rw [hfn]

theorem mergeOn_cellsOf (d1 d2 : DF) (chave : String) (m : Modo) (ck : Col)
    (hk : d1.getCol? chave = some ck) :
    (mergeOn d1 d2 chave m).cellsOf chave
      = (paresModo m (d1.cellsOf chave) (d2.cellsOf chave)).map celulaChave := by
  have hkname : ck.name = chave := (getCol?_name_mem hk).1
  unfold DF.cellsOf DF.getCol? mergeOn
  rw [List.find?_append,
    find?_name_map _ _ _ (fun c => by by_cases hc : c.name = chave <;> simp [hc])]
  have hfind : d1.cols.find? (fun c => c.name == chave) = some ck := hk
  rw [hfind]
  unfold DF.cellsOf DF.getCol?
  rw [hfind]
  simp [Option.or, hkname]

theorem cruzar_dataframes_eq (df1 df2 : DF) (chave_df1 chave_df2 metodo : String)
    (mo : Modo) (hm1 : chave_df1 ∈ df1.names) (hm2 : chave_df2 ∈ df2.names)
    (hmo : parseModo metodo = some mo) :
    cruzar_dataframes df1 df2 chave_df1 chave_df2 metodo
      = .ok (mergeOn ((df1.comPrefixo "df1_").renomear ("df1_" ++ chave_df1) "chave_juncao")
          ((df2.comPrefixo "df2_").renomear ("df2_" ++ chave_df2) "chave_juncao")
          "chave_juncao" mo) := by
  unfold cruzar_dataframes pd_merge_on
  rw [if_neg (by simp [hm1]), if_neg (by simp [hm2]), hmo]

theorem cruzar_dataframes_ok_inv {df1 df2 : DF} {k1 k2 m : String} {r : DF}
    (hok : cruzar_dataframes df1 df2 k1 k2 m = .ok r) :
    k1 ∈ df1.names ∧ k2 ∈ df2.names ∧ ∃ mo, parseModo m = some mo
      ∧ r = mergeOn ((df1.comPrefixo "df1_").renomear ("df1_" ++ k1) "chave_juncao")
          ((df2.comPrefixo "df2_").renomear ("df2_" ++ k2) "chave_juncao")
          "chave_juncao" mo := by
  unfold cruzar_dataframes pd_merge_on at hok
  by_cases hm1 : k1 ∈ df1.names
  · by_cases hm2 : k2 ∈ df2.names
    · rw [if_neg (by simp [hm1]), if_neg (by simp [hm2])] at hok
      cases hp : parseModo m with
      | none => rw [hp] at hok; exact absurd hok (by simp)
      | some mo =>
        rw [hp] at hok
        refine ⟨hm1, hm2, mo, rfl, ?_⟩
        injection hok with hh
        exact hh.symm
    · rw [if_neg (by simp [hm1]), if_pos (by simp [hm2])] at hok
      exact absurd hok (by simp)
  · rw [if_pos (by simp [hm1])] at hok
    exact absurd hok (by simp)

/-! ### Counting rows of the inner merge (claim C9) -/

theorem countP_enum_snd (k : List (Option String)) (v : Option String) :
    k.enum.countP (fun ia => ia.2 == v) = k.count v := by
  have h1 : List.countP (fun ia : Nat × Option String => ia.2 == v) k.enum
      = List.countP (fun x => x == v) (k.enum.map Prod.snd) := by
    rw [List.countP_map]
    rfl
  rw [h1, List.enum_map_snd, List.count]

theorem enum_filter_length (k : List (Option String)) (v : Option String) :
    (k.enum.filter (fun jb => jb.2 == v)).length = k.count v := by
  rw [← List.countP_eq_length_filter, countP_enum_snd]

theorem count_map_const (l : List (Nat × Option String)) (a v : Option String) :
    ((l.map (fun _ => a)).count v) = if a = v then l.length else 0 := by
  induction l with
  | nil => simp
  | cons x t ih =>
    by_cases h : a = v
    · subst h
      simp [List.count_cons, ih]
    · have hb : (v == a) = false := by simp [Ne.symm h]
      simp [List.count_cons, ih, h, List.count_replicate, hb]

theorem map_celulaChave_paresInner (k1 k2 : List (Option String)) :
    (paresInner k1 k2).map celulaChave
      = k1.enum.flatMap (fun ia =>
          (k2.enum.filter (fun jb => jb.2 == ia.2)).map (fun _ => ia.2)) := by
  unfold paresInner
  rw [List.map_flatMap]
  have hfun : (fun ia : Entrada =>
      (((k2.enum.filter (fun jb => jb.2 == ia.2)).map
        (fun jb => ((some ia, some jb) : Option Entrada × Option Entrada))).map celulaChave))
      = (fun ia : Entrada =>
          (k2.enum.filter (fun jb => jb.2 == ia.2)).map (fun _ => ia.2)) := by
    funext ia
    rw [List.map_map]
    rfl
  rw [hfun]

theorem count_flatMap_const (k2 : List (Option String)) (v : Option String)
    (l : List Entrada) :
    ((l.flatMap (fun ia =>
        (k2.enum.filter (fun jb => jb.2 == ia.2)).map (fun _ => ia.2))).count v)
      = l.countP (fun ia => ia.2 == v) * k2.count v := by
  induction l with
  | nil => simp
  | cons a t ih =>
    rw [List.flatMap_cons, List.count_append, ih, List.countP_cons]
    rw [count_map_const]
    by_cases hv : a.2 = v
    · simp only [hv, if_pos rfl, beq_self_eq_true, if_pos]
      rw [enum_filter_length]
      ring
    · have hb : (a.2 == v) = false := by simp [hv]
      simp [hv, hb]

/-- Claim C9 (confirmed): in an inner cruzar_dataframes join, a key value
occurring m times in table 1 and n times in table 2 yields exactly m times n
result rows carrying that key value in the merged key column — the full
cross-product of the matching rows. -/
theorem c9_inner_join_cross_product (df1 df2 : DF) (chave_df1 chave_df2 : String)
    (c1 c2 : Col) (r : DF) (v : String) (m n : Nat)
    (hc1 : df1.getCol? chave_df1 = some c1) (hc2 : df2.getCol? chave_df2 = some c2)
    (hok : cruzar_dataframes df1 df2 chave_df1 chave_df2 "inner" = .ok r)
    (hm : c1.cells.count (some v) = m) (hn : c2.cells.count (some v) = n) :
    (r.cellsOf "chave_juncao").count (some v) = m * n := by
  obtain ⟨hm1, hm2, mo, hmo, hr⟩ := cruzar_dataframes_ok_inv hok
  have hmo2 : mo = Modo.inner := by
    have hi : parseModo "inner" = some Modo.inner := rfl
    rw [hi] at hmo
    injection hmo with hh
    exact hh.symm
  subst hmo2
  subst hr
  have hg1 := comPrefixo_renomear_getCol df1 "df1_" chave_df1 "chave_juncao" c1
    (str_append_cancel "df1_") pref1_ne_cj hc1
  have hcl1 := comPrefixo_renomear_cellsOf df1 "df1_" chave_df1 "chave_juncao" c1
    (str_append_cancel "df1_") pref1_ne_cj hc1
  have hcl2 := comPrefixo_renomear_cellsOf df2 "df2_" chave_df2 "chave_juncao" c2
    (str_append_cancel "df2_") pref2_ne_cj hc2
  rw [mergeOn_cellsOf _ _ _ _ _ hg1, hcl1, hcl2]
  show (((paresInner c1.cells c2.cells).map celulaChave).count (some v)) = m * n
  rw [map_celulaChave_paresInner, count_flatMap_const, countP_enum_snd, hm, hn]

/-- Witness for Claim C9: the key k occurs twice in each input, and the
concrete inner join result dfJunta carries it on exactly 2 times 2 = 4 rows. -/
theorem c9_inner_join_cross_product_witness :
    (dfJunta.cellsOf "chave_juncao").count (some "k") = 2 * 2 :=
  c9_inner_join_cross_product dfJ1 dfJ2 "id" "id"
    { name := "id", kind := .obj, cells := [some "k", some "k"] }
    { name := "id", kind := .obj, cells := [some "k", some "k"] }
    dfJunta "k" 2 2 (by decide) (by decide) (by decide) (by decide) (by decide)

theorem cruzar_result_names {df1 df2 : DF} {k1 k2 m : String} {r : DF}
    (hok : cruzar_dataframes df1 df2 k1 k2 m = .ok r) :
    r.names
      = df1.names.map (fun o => if o = k1 then "chave_juncao" else "df1_" ++ o)
        ++ (df2.names.map (fun o => if o = k2 then "chave_juncao" else "df2_" ++ o)).filter
            (fun n => !(n == "chave_juncao")) := by
  obtain ⟨hm1, hm2, mo, hmo, hr⟩ := cruzar_dataframes_ok_inv hok
  subst hr
  rw [mergeOn_names,
    comPrefixo_renomear_names df1 "df1_" k1 "chave_juncao" (str_append_cancel "df1_"),
    comPrefixo_renomear_names df2 "df2_" k2 "chave_juncao" (str_append_cancel "df2_")]

theorem renomeio_inj (p k : String)
    (hcj : ∀ a : String, p ++ a ≠ "chave_juncao")
    (hcancel : ∀ a b : String, p ++ a = p ++ b → a = b) :
    Function.Injective (fun o => if o = k then "chave_juncao" else p ++ o) := by
  intro a b h
  simp only [] at h
  by_cases ha : a = k <;> by_cases hb : b = k
  · rw [ha, hb]
  · rw [if_pos ha, if_neg hb] at h
    exact absurd h.symm (hcj b)
  · rw [if_neg ha, if_pos hb] at h
    exact absurd h (hcj a)
  · rw [if_neg ha, if_neg hb] at h
    exact hcancel _ _ h

theorem renomeio_eq_cj_iff (p k o : String)
    (hcj : ∀ a : String, p ++ a ≠ "chave_juncao") :
    ((if o = k then "chave_juncao" else p ++ o) = "chave_juncao") ↔ o = k := by
  by_cases ho : o = k
  · simp [ho]
  · simp [ho, hcj o]

theorem cruzar_count_cj {df1 df2 : DF} {k1 k2 m : String} {r : DF}
    (hd1 : df1.names.Nodup)
    (hok : cruzar_dataframes df1 df2 k1 k2 m = .ok r) :
    r.names.count "chave_juncao" = 1 := by
  obtain ⟨hm1, _, _⟩ := cruzar_dataframes_ok_inv hok
  rw [cruzar_result_names hok, List.count_append]
  have h1 : (df1.names.map (fun o => if o = k1 then "chave_juncao" else "df1_" ++ o)).count
      "chave_juncao" = df1.names.count k1 := by
    rw [List.count, List.countP_map]
    have hfn : ((fun x => x == "chave_juncao") ∘
        (fun o => if o = k1 then "chave_juncao" else "df1_" ++ o))
        = (fun o => o == k1) := by
      funext o
      simp [Function.comp, renomeio_eq_cj_iff "df1_" k1 o pref1_ne_cj]
    rw [hfn, List.count]
  have h2 : ((df2.names.map (fun o => if o = k2 then "chave_juncao" else "df2_" ++ o)).filter
      (fun n => !(n == "chave_juncao"))).count "chave_juncao" = 0 := by
    rw [List.count_eq_zero]
    intro hmem
    have := (List.mem_filter.mp hmem).2
    simp at this
  rw [h1, h2, List.count_eq_one_of_mem hd1 hm1]

theorem cruzar_mem_names {df1 df2 : DF} {k1 k2 m : String} {r : DF}
    (hok : cruzar_dataframes df1 df2 k1 k2 m = .ok r) :
    ∀ nm ∈ r.names, nm = "chave_juncao"
      ∨ (∃ o ∈ df1.names, o ≠ k1 ∧ nm = "df1_" ++ o)
      ∨ (∃ o ∈ df2.names, o ≠ k2 ∧ nm = "df2_" ++ o) := by
  intro nm hmem
  rw [cruzar_result_names hok, List.mem_append] at hmem
  rcases hmem with hA | hB
  · obtain ⟨o, ho, he⟩ := List.mem_map.mp hA
    by_cases hk : o = k1
    · rw [hk] at he
      simp at he
      exact Or.inl he.symm
    · rw [if_neg hk] at he
      exact Or.inr (Or.inl ⟨o, ho, hk, he.symm⟩)
  · obtain ⟨hB2, hpred⟩ := List.mem_filter.mp hB
    obtain ⟨o, ho, he⟩ := List.mem_map.mp hB2
    by_cases hk : o = k2
    · rw [hk] at he
      simp at he
      rw [← he] at hpred
      simp at hpred
    · rw [if_neg hk] at he
      exact Or.inr (Or.inr ⟨o, ho, hk, he.symm⟩)

theorem cruzar_names_nodup {df1 df2 : DF} {k1 k2 m : String} {r : DF}
    (hd1 : df1.names.Nodup) (hd2 : df2.names.Nodup)
    (hok : cruzar_dataframes df1 df2 k1 k2 m = .ok r) :
    r.names.Nodup := by
  rw [cruzar_result_names hok]
  refine (List.Nodup.append ?_ ?_ ?_)
  · exact hd1.map (renomeio_inj "df1_" k1 pref1_ne_cj (str_append_cancel "df1_"))
  · exact (hd2.map (renomeio_inj "df2_" k2 pref2_ne_cj (str_append_cancel "df2_"))).filter _
  · rw [List.disjoint_left]
    intro a hA hB
    obtain ⟨o, _, he⟩ := List.mem_map.mp hA
    obtain ⟨hB2, hpred⟩ := List.mem_filter.mp hB
    obtain ⟨o2, _, he2⟩ := List.mem_map.mp hB2
    by_cases hk : o = k1
    · rw [hk] at he
      simp at he
      rw [← he] at hpred
      simp at hpred
    · rw [if_neg hk] at he
      by_cases hk2 : o2 = k2
      · rw [hk2] at he2
        simp at he2
        rw [← he] at he2
        exact pref1_ne_cj o he2.symm
      · rw [if_neg hk2] at he2
        rw [← he] at he2
        exact pref1_ne_pref2 o o2 he2.symm

/-- Claim C10 (confirmed): for inputs with distinct column names, every
successful cruzar_dataframes output column is either the single merged key
column chave_juncao or an input column name carrying the df1_/df2_ source
prefix; hence all output column names are distinct and no name outside these
two shapes can occur. -/
theorem c10_output_column_naming (df1 df2 : DF) (k1 k2 m : String) (r : DF)
    (hd1 : df1.names.Nodup) (hd2 : df2.names.Nodup)
    (hok : cruzar_dataframes df1 df2 k1 k2 m = .ok r) :
    r.names.count "chave_juncao" = 1
    ∧ (∀ nm ∈ r.names, nm = "chave_juncao"
        ∨ (∃ o ∈ df1.names, nm = "df1_" ++ o) ∨ (∃ o ∈ df2.names, nm = "df2_" ++ o))
    ∧ r.names.Nodup
    ∧ (∀ o : String, o ≠ "chave_juncao" → (∀ x, o ≠ "df1_" ++ x) →
        (∀ x, o ≠ "df2_" ++ x) → o ∉ r.names) := by
  refine ⟨cruzar_count_cj hd1 hok, ?_, cruzar_names_nodup hd1 hd2 hok, ?_⟩
  · intro nm hmem
    rcases cruzar_mem_names hok nm hmem with h | ⟨o, ho, _, he⟩ | ⟨o, ho, _, he⟩
    · exact Or.inl h
    · exact Or.inr (Or.inl ⟨o, ho, he⟩)
    · exact Or.inr (Or.inr ⟨o, ho, he⟩)
  · intro o h1 h2 h3 hmem
    rcases cruzar_mem_names hok o hmem with h | ⟨x, _, _, he⟩ | ⟨x, _, _, he⟩
    · exact h1 h
    · exact h2 x he
    · exact h3 x he

/-- Witness for Claim C10: the naming theorem applied to the concrete inner
join of dfJ1 and dfJ2. -/
theorem c10_output_column_naming_witness :
    dfJunta.names.count "chave_juncao" = 1
    ∧ (∀ nm ∈ dfJunta.names, nm = "chave_juncao"
        ∨ (∃ o ∈ dfJ1.names, nm = "df1_" ++ o) ∨ (∃ o ∈ dfJ2.names, nm = "df2_" ++ o))
    ∧ dfJunta.names.Nodup
    ∧ (∀ o : String, o ≠ "chave_juncao" → (∀ x, o ≠ "df1_" ++ x) →
        (∀ x, o ≠ "df2_" ++ x) → o ∉ dfJunta.names) :=
  c10_output_column_naming dfJ1 dfJ2 "id" "id" "inner" dfJunta
    (by decide) (by decide) (by decide)

/-- Claim C6 (amended): cruzar_dataframes never keeps the two key columns as
separate output columns: whatever the key names (equal or not), the result
holds exactly one key column named chave_juncao and neither prefixed key
name df1_<chave1> nor df2_<chave2> survives. -/
theorem c6_key_coalesced_into_chave_juncao (df1 df2 : DF) (k1 k2 m : String) (r : DF)
    (hd1 : df1.names.Nodup) (hd2 : df2.names.Nodup)
    (hok : cruzar_dataframes df1 df2 k1 k2 m = .ok r) :
    r.names.count "chave_juncao" = 1
    ∧ ("df1_" ++ k1) ∉ r.names
    ∧ ("df2_" ++ k2) ∉ r.names := by
  refine ⟨cruzar_count_cj hd1 hok, ?_, ?_⟩
  · intro hmem
    rcases cruzar_mem_names hok _ hmem with h | ⟨o, _, hne, he⟩ | ⟨o, _, _, he⟩
    · exact pref1_ne_cj k1 h
    · exact hne (str_append_cancel "df1_" k1 o he).symm
    · exact pref1_ne_pref2 k1 o he
  · intro hmem
    rcases cruzar_mem_names hok _ hmem with h | ⟨o, _, _, he⟩ | ⟨o, _, hne, he⟩
    · exact pref2_ne_cj k2 h
    · exact pref1_ne_pref2 o k2 he.symm
    · exact hne (str_append_cancel "df2_" k2 o he).symm

/-- Claim C6 (counterexample): joining on the shared key name id, the
data_crosser join result has a single merged key column chave_juncao; no
pair of per-side key columns (df1_id/df2_id, id_A/id_B or id_1/id_2)
is retained. -/
theorem c6_same_name_key_coalesced :
    cruzar_dataframes dfJ1 dfJ2 "id" "id" "inner" = .ok dfJunta
    ∧ dfJunta.names = ["chave_juncao", "df1_x", "df2_y"]
    ∧ "df1_id" ∉ dfJunta.names ∧ "df2_id" ∉ dfJunta.names
    ∧ "id_A" ∉ dfJunta.names ∧ "id_B" ∉ dfJunta.names
    ∧ "id_1" ∉ dfJunta.names ∧ "id_2" ∉ dfJunta.names ∧ "id" ∉ dfJunta.names := by
  refine ⟨by decide, by decide, by decide, by decide, by decide, by decide, by decide,
    by decide, by decide⟩

/-- Witness for Claim C6: the coalescing theorem applied to the concrete
same-name-key join. -/
theorem c6_key_coalesced_into_chave_juncao_witness :
    dfJunta.names.count "chave_juncao" = 1
    ∧ ("df1_" ++ "id") ∉ dfJunta.names
    ∧ ("df2_" ++ "id") ∉ dfJunta.names :=
  c6_key_coalesced_into_chave_juncao dfJ1 dfJ2 "id" "id" "inner" dfJunta
    (by decide) (by decide) (by decide)

theorem parseModo_none_of_not_valid (m : String) (h : m ∉ metodosValidos) :
    parseModo m = none := by
  unfold metodosValidos at h
  simp at h
  unfold parseModo
  rw [if_neg h.1, if_neg h.2.1, if_neg h.2.2.1, if_neg h.2.2.2]

/-- Claim C5 (amended): both join entry points validate the key columns up
front with descriptive errors; the join mode is validated (with the error
listing the valid modes) only by cruzar_dados, while cruzar_dataframes
forwards an invalid mode to the underlying merge, which rejects it with the
library's own exception instead. -/
theorem c5_validation_behavior (df1 df2 : DF) (c1 c2 m : String) :
    (c1 ∉ df1.names →
        cruzar_dataframes df1 df2 c1 c2 m = .error (.chaveNaoEncontrada1 c1)
        ∧ cruzar_dados df1 df2 c1 c2 m = .error (.colunaNaoEncontrada1 c1))
    ∧ (c1 ∈ df1.names → c2 ∉ df2.names →
        cruzar_dataframes df1 df2 c1 c2 m = .error (.chaveNaoEncontrada2 c2)
        ∧ cruzar_dados df1 df2 c1 c2 m = .error (.colunaNaoEncontrada2 c2))
    ∧ (c1 ∈ df1.names → c2 ∈ df2.names → m ∉ metodosValidos →
        cruzar_dataframes df1 df2 c1 c2 m = .error (.pandasHowInvalido m)
        ∧ cruzar_dados df1 df2 c1 c2 m = .error (.metodoInvalido m)) := by
  refine ⟨?_, ?_, ?_⟩
  · intro h1
    constructor
    · unfold cruzar_dataframes
      rw [if_pos h1]
    · unfold cruzar_dados
      rw [if_pos h1]
  · intro h1 h2
    constructor
    · unfold cruzar_dataframes
      rw [if_neg (by simp [h1]), if_pos h2]
    · unfold cruzar_dados
      rw [if_neg (by simp [h1]), if_pos h2]
  · intro h1 h2 h3
    have hp := parseModo_none_of_not_valid m h3
    constructor
    · unfold cruzar_dataframes pd_merge_on
      rw [if_neg (by simp [h1]), if_neg (by simp [h2]), hp]
    · unfold cruzar_dados
      rw [if_neg (by simp [h1]), if_neg (by simp [h2]), if_pos h3]

/-- Claim C5 (counterexample): an invalid join mode is not rejected by
cruzar_dataframes with the error listing the valid modes; the failure
surfaces only as the library merge error, after the column-prefixing work,
whereas cruzar_dados does fail fast with the listing error. -/
theorem c5_cruzar_dataframes_no_mode_check :
    cruzar_dataframes dfJ1 dfJ2 "id" "id" "banana"
        = .error (.pandasHowInvalido "banana")
    ∧ cruzar_dataframes dfJ1 dfJ2 "id" "id" "banana"
        ≠ .error (.metodoInvalido "banana")
    ∧ cruzar_dados dfJ1 dfJ2 "id" "id" "banana" = .error (.metodoInvalido "banana") := by
  refine ⟨by decide, by decide, by decide⟩

/-- Witness for Claim C5: the validation theorem applied to the concrete
tables with the invalid mode banana. -/
theorem c5_validation_behavior_witness :
    cruzar_dataframes dfJ1 dfJ2 "id" "id" "banana"
        = .error (.pandasHowInvalido "banana")
    ∧ cruzar_dados dfJ1 dfJ2 "id" "id" "banana" = .error (.metodoInvalido "banana") :=
  (c5_validation_behavior dfJ1 dfJ2 "id" "id" "banana").2.2
    (by decide) (by decide) (by decide)

theorem faltantes_le_cells (res : DF) (hwf : res.wf) :
    contarFaltantes res ≤ res.nrows * res.cols.length := by
  unfold contarFaltantes
  have hb : ∀ x ∈ res.cols.map (fun c => c.cells.countP (fun v => v.isNone)),
      x ≤ res.nrows := by
    intro x hx
    obtain ⟨c, hc, he⟩ := List.mem_map.mp hx
    rw [← he]
    calc c.cells.countP (fun v => v.isNone) ≤ c.cells.length := List.countP_le_length _
      _ = res.nrows := hwf c hc
  calc (res.cols.map (fun c => c.cells.countP (fun v => v.isNone))).sum
      ≤ (res.cols.map (fun c => c.cells.countP (fun v => v.isNone))).length • res.nrows :=
        List.sum_le_card_nsmul _ _ hb
    _ = res.cols.length * res.nrows := by simp [smul_eq_mul]
    _ = res.nrows * res.cols.length := Nat.mul_comm _ _

theorem completude_mem_unit (res : DF) (hwf : res.wf)
    (hc : 0 < res.nrows * res.cols.length) :
    0 ≤ 1 - mkRat (contarFaltantes res) (res.nrows * res.cols.length)
    ∧ 1 - mkRat (contarFaltantes res) (res.nrows * res.cols.length) ≤ 1 := by
  rw [Rat.mkRat_eq_div]
  have hcells : (0 : Rat) < ((res.nrows * res.cols.length : Nat) : Rat) := by
    exact_mod_cast hc
  constructor
  · have hle : (((contarFaltantes res : Nat) : Int) : Rat)
        / ((res.nrows * res.cols.length : Nat) : Rat) ≤ 1 := by
      rw [div_le_one hcells]
      exact_mod_cast faltantes_le_cells res hwf
    linarith
  · have h0 : (0 : Rat) ≤ (((contarFaltantes res : Nat) : Int) : Rat)
        / ((res.nrows * res.cols.length : Nat) : Rat) := by positivity
    linarith

/-- Claim C7 (amended): quality scoring is a total function — the match
rates are guarded to 0 for 0-row inputs — but the completeness division is
not guarded: a 0-cell result gives completeness NaN (modelled none), which
propagates to the composite score, instead of the claimed completeness 1;
with at least one cell the completeness is a well-defined value in [0, 1]. -/
theorem c7_quality_totality (res d1 d2 : DF) (hwf : res.wf) :
    (d1.nrows = 0 → (avaliar_qualidade_cruzamento res d1 d2).taxa_correspondencia_df1 = 0)
    ∧ (d2.nrows = 0 → (avaliar_qualidade_cruzamento res d1 d2).taxa_correspondencia_df2 = 0)
    ∧ (res.nrows * res.cols.length = 0 →
        (avaliar_qualidade_cruzamento res d1 d2).completude = none
        ∧ (avaliar_qualidade_cruzamento res d1 d2).qualidade_geral = none)
    ∧ (0 < res.nrows * res.cols.length →
        ∃ c, (avaliar_qualidade_cruzamento res d1 d2).completude = some c
          ∧ 0 ≤ c ∧ c ≤ 1) := by
  unfold avaliar_qualidade_cruzamento
  refine ⟨fun h => by simp [h], fun h => by simp [h], fun h => by simp [h], fun h => ?_⟩
  have hne : ¬ (res.nrows * res.cols.length = 0) := Nat.pos_iff_ne_zero.mp h
  refine ⟨1 - mkRat (contarFaltantes res) (res.nrows * res.cols.length), by simp [hne], ?_, ?_⟩
  · exact (completude_mem_unit res hwf h).1
  · exact (completude_mem_unit res hwf h).2

/-- Claim C7 (counterexample): for a result table with zero cells, the
completeness is NaN (none), not 1: the denominator of the completeness
division is not guarded. -/
theorem c7_zero_cell_completeness_nan :
    dfZero.nrows * dfZero.cols.length = 0
    ∧ (avaliar_qualidade_cruzamento dfZero dfJ1 dfJ2).completude = none
    ∧ (avaliar_qualidade_cruzamento dfZero dfJ1 dfJ2).completude ≠ some 1
    ∧ (avaliar_qualidade_cruzamento dfZero dfJ1 dfJ2).qualidade_geral = none := by
  refine ⟨rfl, by decide, by decide, by decide⟩

/-- Witness for Claim C7: the totality theorem applied to a 0-row input, a
0-cell result and the 4-row concrete join result. -/
theorem c7_quality_totality_witness :
    (avaliar_qualidade_cruzamento dfZero dfZero dfJ2).taxa_correspondencia_df1 = 0
    ∧ ((avaliar_qualidade_cruzamento dfZero dfJ1 dfJ2).completude = none
        ∧ (avaliar_qualidade_cruzamento dfZero dfJ1 dfJ2).qualidade_geral = none)
    ∧ ∃ c, (avaliar_qualidade_cruzamento dfJunta dfJ1 dfJ2).completude = some c
        ∧ 0 ≤ c ∧ c ≤ 1 :=
  ⟨(c7_quality_totality dfZero dfZero dfJ2 (by decide)).1 rfl,
   (c7_quality_totality dfZero dfJ1 dfJ2 (by decide)).2.2.1 rfl,
   (c7_quality_totality dfJunta dfJ1 dfJ2 (by decide)).2.2.2 (by decide)⟩

theorem taxa_mem_unit (nr n : Nat) (hn : 0 < n) (hle : nr ≤ n) :
    0 ≤ mkRat nr n ∧ mkRat nr n ≤ 1 := by
  rw [Rat.mkRat_eq_div]
  have hpos : (0 : Rat) < (n : Rat) := by exact_mod_cast hn
  constructor
  · positivity
  · rw [div_le_one hpos]
    exact_mod_cast hle

/-- Claim C8 (amended): the composite score is the unweighted mean of the
two match rates and the completeness, and it lies in [0, 1] whenever each
component does — in particular when the result has at least one cell and no
more rows than either input.  Without those conditions the claim fails: the
match rates are not capped at 1. -/
theorem c8_composite_bounds (res d1 d2 : DF) (hwf : res.wf)
    (h1 : res.nrows ≤ d1.nrows) (h2 : res.nrows ≤ d2.nrows)
    (hc : 0 < res.nrows * res.cols.length) :
    ∃ q c, (avaliar_qualidade_cruzamento res d1 d2).completude = some c
      ∧ (avaliar_qualidade_cruzamento res d1 d2).qualidade_geral = some q
      ∧ q = ((avaliar_qualidade_cruzamento res d1 d2).taxa_correspondencia_df1
          + (avaliar_qualidade_cruzamento res d1 d2).taxa_correspondencia_df2 + c)
            * mkRat 1 3
      ∧ 0 ≤ q ∧ q ≤ 1 := by
  have hnr : 0 < res.nrows := by
    rcases Nat.eq_zero_or_pos res.nrows with h | h
    · rw [h] at hc
      simp at hc
    · exact h
  have hd1 : 0 < d1.nrows := lt_of_lt_of_le hnr h1
  have hd2 : 0 < d2.nrows := lt_of_lt_of_le hnr h2
  have hcne : ¬ (res.nrows * res.cols.length = 0) := Nat.pos_iff_ne_zero.mp hc
  have ht1 := taxa_mem_unit res.nrows d1.nrows hd1 h1
  have ht2 := taxa_mem_unit res.nrows d2.nrows hd2 h2
  have hcu := completude_mem_unit res hwf hc
  have h3 : mkRat 1 3 = (1 : Rat) / 3 := by
    rw [Rat.mkRat_eq_div]
    norm_num
  unfold avaliar_qualidade_cruzamento
  simp only [hd1, hd2, if_pos, hcne, if_neg, Option.map_some, ite_true, ite_false,
    reduceIte]
  refine ⟨_, _, rfl, rfl, rfl, ?_, ?_⟩
  · have hsum : 0 ≤ mkRat res.nrows d1.nrows + mkRat res.nrows d2.nrows
        + (1 - mkRat (contarFaltantes res) (res.nrows * res.cols.length)) := by
      linarith [ht1.1, ht2.1, hcu.1]
    have h13 : (0 : Rat) ≤ mkRat 1 3 := by
      rw [h3]
      norm_num
    exact mul_nonneg hsum h13
  · simp only [h3, mul_one_div]
    rw [div_le_one (by norm_num : (0 : Rat) < 3)]
    linarith [ht1.2, ht2.2, hcu.2]

/-- Claim C8 (counterexample): a genuine inner join result with duplicated
keys has 4 rows against 2-row inputs, so both match rates are 2 and the
composite score is 5/3, outside [0, 1]. -/
theorem c8_composite_exceeds_one :
    cruzar_dataframes dfJ1 dfJ2 "id" "id" "inner" = .ok dfJunta
    ∧ (avaliar_qualidade_cruzamento dfJunta dfJ1 dfJ2).qualidade_geral = some (mkRat 5 3)
    ∧ ¬ (mkRat 5 3 ≤ 1) := by
  refine ⟨by decide, ?_, ?_⟩
  · norm_num [avaliar_qualidade_cruzamento, contarFaltantes, dfJunta, dfJ1, dfJ2,
      Rat.mkRat_eq_div]
  · rw [Rat.mkRat_eq_div]
    norm_num

/-- Witness for Claim C8: the bounded-composite theorem applied with dfJ1
itself as the result table (2 rows, 4 cells, within both inputs). -/
theorem c8_composite_bounds_witness :
    ∃ q c, (avaliar_qualidade_cruzamento dfJ1 dfJ1 dfJ2).completude = some c
      ∧ (avaliar_qualidade_cruzamento dfJ1 dfJ1 dfJ2).qualidade_geral = some q
      ∧ q = ((avaliar_qualidade_cruzamento dfJ1 dfJ1 dfJ2).taxa_correspondencia_df1
          + (avaliar_qualidade_cruzamento dfJ1 dfJ1 dfJ2).taxa_correspondencia_df2 + c)
            * mkRat 1 3
      ∧ 0 ≤ q ∧ q ≤ 1 :=
  c8_composite_bounds dfJ1 dfJ1 dfJ2 (by decide) (by decide) (by decide) (by decide)
